import Mathlib

/-!
Verification of the `rust-book` repository's worker-thread-pool design
(crate `hello`, used by `final project/hello/src/bin/main.rs`) and of the
demo HTTP connection handler in `main.rs`.

The `hello` crate's library (ThreadPool / Worker / channel internals) is not
present in the sources; only its caller `main.rs` is.  Those components are
therefore modelled from the specification (each such definition carries a
doc comment starting with `Modelled from the spec:`).  Everything about
`main` and `handle_connection` is embedded directly from
`src/final project/hello/src/bin/main.rs`.
-/

namespace RustBook

/-- Modelled from the spec: a Job is an opaque single-invocation callable
with no return value.  We identify jobs by a numeric id and record whether
running the job raises an isolated internal failure (a panic). -/
structure Job where
  id : Nat
  fails : Bool
deriving DecidableEq, Repr

/-- Modelled from the spec: the error taxonomy of the pool.
`InvalidPoolSize` is construction-time, `PoolShuttingDown` is
submission-time. -/
inductive PoolError where
  | InvalidPoolSize
  | PoolShuttingDown
deriving DecidableEq, Repr

/-- Modelled from the spec: the Worker state machine
Idle -> Running -> Idle -> ... -> Exited. -/
inductive WorkerState where
  | Idle
  | Running (j : Job)
  | Exited
deriving DecidableEq, Repr

/-- Modelled from the spec: the state of a ThreadPool together with its
JobQueue.  `workers` has one entry per Worker (its length is the pool
size); `producerHandles` counts the open sending handles of the JobQueue
(exactly one while the pool is open, zero after shutdown closes it);
`buffer` holds the jobs handed to the channel and not yet delivered, in
submission order; `closed` records whether the producer side has been
closed (the sole shutdown signal); `executed` is the list of jobs run to
completion, in completion order. -/
structure PoolState where
  size : Nat
  workers : List WorkerState
  producerHandles : Nat
  buffer : List Job
  closed : Bool
  executed : List Job
deriving DecidableEq, Repr

/-- Modelled from the spec: the state of a freshly constructed pool of
the given size: all Workers Idle, one producer handle, an empty open
queue, nothing executed yet. -/
def freshPool (size : Nat) : PoolState :=
  { size := size
    workers := List.replicate size .Idle
    producerHandles := 1
    buffer := []
    closed := false
    executed := [] }

namespace ThreadPool

/-- Modelled from the spec: `create(size)` fails with `InvalidPoolSize`
when `size` is zero, otherwise spawns exactly `size` Workers (all Idle,
each holding one consumer handle of the JobQueue) and one producer
handle held by the pool. -/
def new (size : Nat) : Except PoolError PoolState :=
  if size = 0 then
    .error .InvalidPoolSize
  else
    .ok (freshPool size)

end ThreadPool

/-- Modelled from the spec: `submit(job)` enqueues the job onto the
JobQueue; it fails with `PoolShuttingDown` when the producer side of the
channel is closed (shutdown has been initiated), and this is its only
error condition. -/
def submit (st : PoolState) (j : Job) : Except PoolError PoolState :=
  if st.closed then
    .error .PoolShuttingDown
  else
    .ok { st with buffer := st.buffer ++ [j] }

/-- Modelled from the spec: submitting a whole list of jobs in order. -/
def submitAll (st : PoolState) : List Job → Except PoolError PoolState
  | [] => .ok st
  | j :: js =>
    match submit st j with
    | .error e => .error e
    | .ok st1 => submitAll st1 js

/-- Modelled from the spec: shutdown closes the producer side of the
JobQueue (dropping the pool's single sending handle); this is the sole
shutdown signal seen by the Workers. -/
def closeQueue (st : PoolState) : PoolState :=
  { st with closed := true, producerHandles := 0 }

/-- Modelled from the spec: what a consumer observes when it receives
from the JobQueue. -/
inductive RecvResult where
  | job (j : Job)
  | closedEmpty
  | wouldBlock
deriving DecidableEq, Repr

/-- Modelled from the spec: the JobQueue receive operation.  A buffered
job is delivered even when the channel is already closed; closure is
observed only when the channel is closed AND empty; an empty open
channel blocks the consumer. -/
def recv (st : PoolState) : RecvResult × PoolState :=
  match st.buffer with
  | j :: rest => (.job j, { st with buffer := rest })
  | [] => if st.closed then (.closedEmpty, st) else (.wouldBlock, st)

/-- Modelled from the spec: Worker `w` runs one job to completion.  A
job's internal failure (its `fails` flag) is caught and contained by the
Worker: in either case the job is recorded as executed and the Worker
returns to Idle. -/
def runJob (st : PoolState) (w : Nat) (j : Job) : PoolState :=
  { st with executed := st.executed ++ [j], workers := st.workers.set w .Idle }

/-- Modelled from the spec: one iteration of Worker `w`'s receive-execute
loop: receive from the JobQueue; on a job, run it (failures contained)
and return to Idle; on closed-and-empty, transition to Exited; on an
empty open channel, stay blocked. -/
def workerStep (st : PoolState) (w : Nat) : PoolState :=
  match recv st with
  | (.job j, st1) => runJob st1 w j
  | (.closedEmpty, st1) => { st1 with workers := st1.workers.set w .Exited }
  | (.wouldBlock, st1) => st1

/-- Modelled from the spec: `n` iterations of Worker `w`'s loop. -/
def stepN (st : PoolState) (w : Nat) : Nat → PoolState
  | 0 => st
  | n + 1 => stepN (workerStep st w) w n

/-- Modelled from the spec: a consumer receiving repeatedly until it
observes closure (or would block); first component collects the jobs
delivered, in order, paired with nothing else. -/
def drainList (st : PoolState) : Nat → List Job × PoolState
  | 0 => ([], st)
  | n + 1 =>
    match recv st with
    | (.job j, st1) =>
      let p := drainList st1 n
      (j :: p.1, p.2)
    | (_, st1) => ([], st1)

/-- Modelled from the spec: a schedule of receives by the contending
consumers; entry `w` means Worker `w` performs the next receive.  The
first component records which worker received which job. -/
def runRecvs (st : PoolState) : List Nat → List (Nat × Job) × PoolState
  | [] => ([], st)
  | w :: ws =>
    match recv st with
    | (.job j, st1) =>
      let p := runRecvs st1 ws
      ((w, j) :: p.1, p.2)
    | (_, st1) => runRecvs st1 ws

/-- Outcome of the demo program's startup (embedded from `main` in
`src/final project/hello/src/bin/main.rs`): on a construction error the
closure passed to `unwrap_or_else` prints the error and calls
`process::exit(1)`, so no job is ever submitted on that path. -/
inductive MainOutcome where
  | exitedWithError (reported : PoolError) (exitCode : Nat) (jobsSubmitted : Nat)
  | poolReady (pool : PoolState)
deriving DecidableEq, Repr

/-- Embedded from `main` in `main.rs`:
`ThreadPool::new(size).unwrap_or_else(|e| { println!(...e); process::exit(1); })`,
generalized over the pool size argument (the demo passes 5). -/
def mainSetup (size : Nat) : MainOutcome :=
  match ThreadPool.new size with
  | .error e => .exitedWithError e 1 0
  | .ok pool => .poolReady pool

/-! ### Helper lemmas about the pool model -/

theorem set_all_eq {α : Type} (a : α) :
    ∀ (l : List α) (w : Nat), (∀ x ∈ l, x = a) → l.set w a = l := by
  intro l
  induction l with
  | nil => intro w _; rfl
  | cons x xs ih =>
    intro w h
    cases w with
    | zero => simp [List.set, h x (by simp)]
    | succ n => simp [List.set, ih n (fun y hy => h y (by simp [hy]))]

theorem workerStep_pop (st : PoolState) (w : Nat) (j : Job) (rest : List Job)
    (hb : st.buffer = j :: rest) :
    workerStep st w =
      { st with buffer := rest, executed := st.executed ++ [j],
                workers := st.workers.set w .Idle } := by
  cases st
  simp_all [workerStep, recv, runJob]

theorem stepN_drain (buf : List Job) :
    ∀ (st : PoolState) (w : Nat), st.buffer = buf →
      st.workers.set w WorkerState.Idle = st.workers →
      stepN st w buf.length = { st with buffer := [], executed := st.executed ++ buf } := by
  induction buf with
  | nil =>
    intro st w hb _
    cases st
    simp_all [stepN]
  | cons j rest ih =>
    intro st w hb hw
    rw [List.length_cons, stepN, workerStep_pop st w j rest hb, hw]
    rw [ih { st with buffer := rest, executed := st.executed ++ [j] } w rfl hw]
    simp

theorem submitAll_open (jobs : List Job) :
    ∀ (st : PoolState), st.closed = false →
      submitAll st jobs = .ok { st with buffer := st.buffer ++ jobs } := by
  induction jobs with
  | nil =>
    intro st h
    cases st
    simp [submitAll]
  | cons j js ih =>
    intro st h
    rw [submitAll, submit, if_neg (by simp [h])]
    show submitAll { st with buffer := st.buffer ++ [j] } js = _
    rw [ih { st with buffer := st.buffer ++ [j] } h]
    simp

theorem drainList_delivers (buf : List Job) :
    ∀ (st : PoolState), st.buffer = buf →
      drainList st buf.length = (buf, { st with buffer := [] }) := by
  induction buf with
  | nil =>
    intro st hb
    cases st
    simp_all [drainList]
  | cons j rest ih =>
    intro st hb
    rw [List.length_cons, drainList]
    have hrecv : recv st = (.job j, { st with buffer := rest }) := by
      cases st
      simp_all [recv]
    rw [hrecv]
    simp [ih { st with buffer := rest } rfl]

theorem recv_cons (st : PoolState) (j : Job) (rest : List Job)
    (hb : st.buffer = j :: rest) :
    recv st = (.job j, { st with buffer := rest }) := by
  cases st
  simp_all [recv]

theorem recv_empty_closed (st : PoolState) (hb : st.buffer = [])
    (hc : st.closed = true) : recv st = (.closedEmpty, st) := by
  cases st
  simp_all [recv]

theorem recv_empty_open (st : PoolState) (hb : st.buffer = [])
    (hc : st.closed = false) : recv st = (.wouldBlock, st) := by
  cases st
  simp_all [recv]

theorem runRecvs_delivers (sched : List Nat) :
    ∀ (st : PoolState),
      ((runRecvs st sched).1.map Prod.snd = st.buffer.take sched.length) := by
  induction sched with
  | nil => intro st; simp [runRecvs]
  | cons w ws ih =>
    intro st
    rcases hb : st.buffer with _ | ⟨j, rest⟩
    · cases hc : st.closed with
      | false =>
        rw [runRecvs, recv_empty_open st hb hc]
        simp [ih st, hb]
      | true =>
        rw [runRecvs, recv_empty_closed st hb hc]
        simp [ih st, hb]
    · rw [runRecvs, recv_cons st j rest hb]
      simp [ih { st with buffer := rest }, hb]

theorem new_ok (size : Nat) (pool : PoolState)
    (h : ThreadPool.new size = .ok pool) :
    size ≠ 0 ∧ pool = freshPool size := by
  by_cases hs : size = 0 <;> simp_all [ThreadPool.new]

theorem freshPool_set_idle (size : Nat) :
    (freshPool size).workers.set 0 WorkerState.Idle = (freshPool size).workers :=
  set_all_eq _ _ _ (fun x hx => List.eq_of_mem_replicate hx)

/-! ### Claim theorems -/

/-- C1: a job that fails internally while a Worker is running it is
contained by that Worker: after a failing job followed by any list of
normal jobs is processed, every job (the failing one included) has been
executed, the Worker has returned to Idle, no Worker has Exited, and the
pool still has all `size` workers — so all subsequently submitted normal
jobs complete. -/
theorem job_failure_contained (size : Nat) (pool : PoolState)
    (hpool : ThreadPool.new size = .ok pool)
    (f : Job) (hf : f.fails = true) (js : List Job) (final : PoolState)
    (hfinal : final = stepN { pool with buffer := f :: js } 0 (js.length + 1)) :
    final.executed = f :: js ∧
    final.workers = List.replicate size WorkerState.Idle ∧
    final.workers.length = size ∧
    WorkerState.Exited ∉ final.workers ∧
    ∀ j ∈ js, j ∈ final.executed := by
  obtain ⟨hs, hp⟩ := new_ok size pool hpool
  subst hp
  have hdrain := stepN_drain (f :: js) { freshPool size with buffer := f :: js }
      0 rfl (freshPool_set_idle size)
  rw [List.length_cons] at hdrain
  subst hfinal
  rw [hdrain]
  refine ⟨by simp [freshPool], by simp [freshPool], by simp [freshPool],
    by simp [freshPool, List.mem_replicate], ?_⟩
  intro j hj
  simp only [freshPool, List.nil_append, List.mem_cons]
  exact Or.inr hj

theorem job_failure_contained_witness :
    (stepN { freshPool 1 with buffer := [⟨0, true⟩, ⟨1, false⟩] } 0 2).executed
      = [⟨0, true⟩, ⟨1, false⟩] :=
  (job_failure_contained 1 (freshPool 1) rfl ⟨0, true⟩ rfl [⟨1, false⟩] _ rfl).1

/-- C2: constructing a ThreadPool with size 0 fails with the
distinguishable error InvalidPoolSize, and the demo program's `main`
(the unwrap_or_else branch) reports that error and exits with code 1
having submitted no jobs. -/
theorem pool_size_zero_reported :
    ThreadPool.new 0 = .error .InvalidPoolSize ∧
    mainSetup 0 = .exitedWithError .InvalidPoolSize 1 0 :=
  ⟨rfl, rfl⟩

/-- C3: every job accepted by submit before shutdown is initiated is
executed exactly once: after the producer side is closed, the buffered
jobs are all still delivered (in order, with their exact multiplicity)
before closure is observed, and a worker draining the queue executes
exactly those jobs. -/
theorem no_job_dropped_on_shutdown (size : Nat) (pool st : PoolState)
    (jobs : List Job)
    (hpool : ThreadPool.new size = .ok pool)
    (hsub : submitAll pool jobs = .ok st) :
    (drainList (closeQueue st) jobs.length).1 = jobs ∧
    (∀ j : Job, (drainList (closeQueue st) jobs.length).1.count j = jobs.count j) ∧
    (recv (drainList (closeQueue st) jobs.length).2).1 = RecvResult.closedEmpty ∧
    (stepN (closeQueue st) 0 jobs.length).executed = jobs := by
  obtain ⟨hs, hp⟩ := new_ok size pool hpool
  subst hp
  rw [submitAll_open jobs _ rfl] at hsub
  injection hsub with hst
  have hbufst : st.buffer = jobs := by rw [← hst]; rfl
  have hwst : st.workers = List.replicate size WorkerState.Idle := by
    rw [← hst]; rfl
  have hexecst : st.executed = [] := by rw [← hst]; rfl
  have hcbuf : (closeQueue st).buffer = jobs := by simp [closeQueue, hbufst]
  have hdeliver := drainList_delivers jobs (closeQueue st) hcbuf
  rw [hdeliver]
  refine ⟨rfl, fun j => rfl, ?_, ?_⟩
  · show (recv { closeQueue st with buffer := [] }).1 = RecvResult.closedEmpty
    rw [recv_empty_closed { closeQueue st with buffer := [] } rfl rfl]
  · rw [stepN_drain jobs (closeQueue st) 0 hcbuf
      (by
        have h0 := set_all_eq WorkerState.Idle
          (List.replicate size WorkerState.Idle) 0
          (fun x hx => List.eq_of_mem_replicate hx)
        simp [closeQueue, hwst, h0])]
    simp [closeQueue, hexecst]

theorem no_job_dropped_on_shutdown_witness :
    (drainList (closeQueue
        { freshPool 1 with buffer := (freshPool 1).buffer ++ [⟨0, false⟩, ⟨1, false⟩] })
      2).1 = [⟨0, false⟩, ⟨1, false⟩] :=
  (no_job_dropped_on_shutdown 1 (freshPool 1) _ [⟨0, false⟩, ⟨1, false⟩]
    rfl rfl).1

/-- C4: submitting after shutdown has been initiated (the producer side
closed) fails deterministically and synchronously with PoolShuttingDown
and never yields a new pool state (so the job is never enqueued or
executed); and PoolShuttingDown on a closed pool is the only error
submit can ever produce. -/
theorem submit_after_shutdown_fails (st : PoolState) (j : Job) :
    (st.closed = true →
      submit st j = .error .PoolShuttingDown ∧
      ∀ st1, submit st j ≠ .ok st1) ∧
    (∀ e, submit st j = .error e →
      e = .PoolShuttingDown ∧ st.closed = true) := by
  constructor
  · intro h
    refine ⟨by simp [submit, h], ?_⟩
    intro st1 hcon
    simp [submit, h] at hcon
  · intro e he
    by_cases h : st.closed = true <;> simp_all [submit]

theorem submit_after_shutdown_fails_witness :
    submit { size := 1, workers := [WorkerState.Idle], producerHandles := 0,
             buffer := [], closed := true, executed := [] } ⟨7, false⟩
      = .error .PoolShuttingDown :=
  ((submit_after_shutdown_fails
    { size := 1, workers := [WorkerState.Idle], producerHandles := 0,
      buffer := [], closed := true, executed := [] } ⟨7, false⟩).1 rfl).1

/-- C7: the JobQueue is one logical channel: after construction and any
submissions the pool holds exactly one producer handle and `size`
workers (one consumer handle each), and under any receive schedule by
the contending workers each submitted job is delivered, in submission
order, to exactly one worker (with exact multiplicity once the schedule
is long enough to drain the queue). -/
theorem jobqueue_single_channel (size : Nat) (pool st : PoolState)
    (jobs : List Job)
    (hpool : ThreadPool.new size = .ok pool)
    (hsub : submitAll pool jobs = .ok st) :
    st.producerHandles = 1 ∧
    st.workers.length = size ∧
    (∀ sched : List Nat,
      (runRecvs st sched).1.map Prod.snd = jobs.take sched.length) ∧
    (∀ sched : List Nat, jobs.length ≤ sched.length →
      ∀ j : Job,
        ((runRecvs st sched).1.map Prod.snd).count j = jobs.count j) := by
  obtain ⟨hs, hp⟩ := new_ok size pool hpool
  subst hp
  rw [submitAll_open jobs _ rfl] at hsub
  injection hsub with hst
  have hbufst : st.buffer = jobs := by rw [← hst]; rfl
  have hph : st.producerHandles = 1 := by rw [← hst]; rfl
  have hwlen : st.workers.length = size := by
    rw [← hst]
    simp [freshPool]
  refine ⟨hph, hwlen, ?_, ?_⟩
  · intro sched
    rw [runRecvs_delivers sched st, hbufst]
  · intro sched hlen j
    rw [runRecvs_delivers sched st, hbufst, List.take_of_length_le hlen]

theorem jobqueue_single_channel_witness :
    ({ freshPool 1 with
        buffer := (freshPool 1).buffer ++ [(⟨0, false⟩ : Job)] } :
      PoolState).producerHandles = 1 :=
  (jobqueue_single_channel 1 (freshPool 1) _ [⟨0, false⟩] rfl rfl).1

/-! ### The demo HTTP connection handler, embedded from
`src/final project/hello/src/bin/main.rs` -/

/-- Embedded from `handle_connection`: the byte string
b"GET / HTTP/1.1\r\n" (bytes as natural numbers). -/
def getLine : List Nat := "GET / HTTP/1.1\r\n".toList.map Char.toNat

/-- Embedded from `handle_connection`: the byte string
b"GET /sleep HTTP/1.1\r\n". -/
def sleepLine : List Nat := "GET /sleep HTTP/1.1\r\n".toList.map Char.toNat

/-- The size of the stack buffer `[0; 1024]` in `handle_connection`. -/
def bufferSize : Nat := 1024

/-- Embedded from `handle_connection`: the contents of the 1024-byte
zero-initialized buffer after the single `stream.read`: the bytes the
read delivered (at most 1024 of them) followed by the remaining zero
initialization. -/
def padBuffer (bs : List Nat) : List Nat :=
  bs.take bufferSize ++
    List.replicate (bufferSize - (bs.take bufferSize).length) 0

/-- The buffer produced for a connection whose incoming byte stream is
`stream` when the single read delivers its first `n` bytes. -/
def connectionBuffer (stream : List Nat) (n : Nat) : List Nat :=
  padBuffer (stream.take n)

/-- Embedded from `handle_connection`: the routing if/else chain on the
buffer: `starts_with(get)` gives 200 OK with hello.html, otherwise
`starts_with(sleep)` sleeps and gives 200 OK with hello.html, otherwise
the default 404 NOT FOUND with 404.html.  Result: (status_line,
filename, whether the sleep delay happened). -/
def routeRequest (buffer : List Nat) : String × String × Bool :=
  if getLine.isPrefixOf buffer then
    ("HTTP/1.1 200 OK", "hello.html", false)
  else if sleepLine.isPrefixOf buffer then
    ("HTTP/1.1 200 OK", "hello.html", true)
  else
    ("HTTP/1.1 404 NOT FOUND", "404.html", false)

/-- Decimal rendering of a natural number, embedding the `{}` (Display)
formatting of `usize` used by the `format!` call for `contents.len()`. -/
def decimalAux (n : Nat) (acc : List Char) : List Char :=
  if _h : n < 10 then
    Char.ofNat (48 + n % 10) :: acc
  else
    decimalAux (n / 10) (Char.ofNat (48 + n % 10) :: acc)
termination_by n
decreasing_by exact Nat.div_lt_self (by omega) (by omega)

/-- Decimal rendering as a string. -/
def decimal (n : Nat) : String := String.mk (decimalAux n [])

/-- Embedded from `handle_connection`: the `format!` template
"{}\r\nContent-Lenght: {}\r\n\r\n{}" applied to the status line, the
byte length of the file contents, and the contents. -/
def mkResponse (status_line contents : String) : String :=
  status_line ++ "\r\nContent-Lenght: " ++ decimal contents.utf8ByteSize
    ++ "\r\n\r\n" ++ contents

/-- An opaque I/O error (the payload of a `Result::Err` from the
standard-library calls that `handle_connection` unwraps). -/
inductive IoError where
  | ioError
deriving DecidableEq, Repr

/-- The environment one connection-handling job runs against: the
outcome of the single `stream.read` (the bytes it delivered, or an
error), the filesystem (`fs::read_to_string` per filename), and whether
the stream `write` and `flush` succeed. -/
structure ConnEnv where
  readBytes : Except IoError (List Nat)
  file : String → Except IoError String
  writeOk : Bool
  flushOk : Bool

/-- Result of running `handle_connection`: either the job panicked at
one of its `unwrap` calls, or it wrote the full response and closed the
connection (recording whether the /sleep delay happened). -/
inductive HCResult where
  | panicked
  | wrote (response : String) (slept : Bool)
deriving DecidableEq, Repr

/-- Embedded from `handle_connection` in `main.rs`: read into the
1024-byte buffer (`unwrap`), route by `starts_with` on the buffer, read
the routed file from disk (`unwrap`), format the response, write it
(`unwrap`) and flush (`unwrap`); every failure path is an unwrap panic. -/
def handle_connection (env : ConnEnv) : HCResult :=
  match env.readBytes with
  | .error _ => .panicked
  | .ok bs =>
    let r := routeRequest (padBuffer bs)
    match env.file r.2.1 with
    | .error _ => .panicked
    | .ok contents =>
      if env.writeOk then
        if env.flushOk then .wrote (mkResponse r.1 contents) r.2.2
        else .panicked
      else .panicked

/-! ### Helper lemmas about the handler -/

theorem get_sleep_disjoint (l : List Nat) (h1 : getLine.isPrefixOf l = true)
    (h2 : sleepLine.isPrefixOf l = true) : False := by
  rw [ List.isPrefixOf_iff_prefix] at h1 h2
  have hpp := List.prefix_of_prefix_length_le h1 h2 (by decide)
  have : ¬ (getLine <+: sleepLine) := by decide
  exact this hpp

theorem handle_connection_ok (env : ConnEnv) (bs : List Nat)
    (contents : String) (hread : env.readBytes = .ok bs)
    (hfile : env.file (routeRequest (padBuffer bs)).2.1 = .ok contents)
    (hw : env.writeOk = true) (hfl : env.flushOk = true) :
    handle_connection env =
      .wrote (mkResponse (routeRequest (padBuffer bs)).1 contents)
        (routeRequest (padBuffer bs)).2.2 := by
  cases env
  simp_all [handle_connection]

theorem routeRequest_status (buffer : List Nat) :
    (routeRequest buffer).1 = "HTTP/1.1 200 OK" ∨
    (routeRequest buffer).1 = "HTTP/1.1 404 NOT FOUND" := by
  rw [routeRequest]
  split
  · exact Or.inl rfl
  · split
    · exact Or.inl rfl
    · exact Or.inr rfl

theorem infix_of_cons {α : Type} {l t : List α} {x : α} (h : l <:+: t) :
    l <:+: x :: t := by
  obtain ⟨s, r, hs⟩ := h
  exact ⟨x :: s, r, by rw [← hs]; simp⟩

theorem infix_cons_elim {α : Type} {l t : List α} {x : α} (h : l <:+: x :: t) :
    l <+: x :: t ∨ l <:+: t := by
  obtain ⟨s, r, hs⟩ := h
  cases s with
  | nil => exact Or.inl ⟨r, by simpa using hs⟩
  | cons y ys =>
    right
    rw [List.cons_append, List.cons_append] at hs
    injection hs with hy hs2
    exact ⟨ys, r, hs2⟩

theorem pair_split {α : Type} (a b : α) :
    ∀ (l₁ l₂ : List α), [a, b] <:+: l₁ ++ l₂ →
      [a, b] <:+: l₁ ∨ [a, b] <:+: l₂ ∨ (a ∈ l₁ ∧ b ∈ l₂) := by
  intro l₁
  induction l₁ with
  | nil =>
    intro l₂ h
    exact Or.inr (Or.inl (by simpa using h))
  | cons x xs ih =>
    intro l₂ h
    rw [List.cons_append] at h
    rcases infix_cons_elim h with hpre | hinf
    · obtain ⟨r, hr⟩ := hpre
      simp only [List.cons_append, List.nil_append] at hr
      injection hr with hax hr1
      subst hax
      cases xs with
      | nil =>
        refine Or.inr (Or.inr ⟨by simp, ?_⟩)
        simp only [List.nil_append] at hr1
        rw [← hr1]
        exact List.mem_cons_self b r
      | cons y ys =>
        left
        simp only [List.cons_append] at hr1
        injection hr1 with hby hr2
        subst hby
        exact (show [a, b] <+: a :: b :: ys from ⟨ys, rfl⟩).isInfix
    · rcases ih l₂ hinf with h1 | h2 | h3
      · exact Or.inl (infix_of_cons h1)
      · exact Or.inr (Or.inl h2)
      · exact Or.inr (Or.inr ⟨List.mem_cons_of_mem x h3.1, h3.2⟩)

theorem digit_char_isDigit (n : Nat) :
    (Char.ofNat (48 + n % 10)).isDigit = true := by
  have h : n % 10 < 10 := Nat.mod_lt n (by norm_num)
  generalize hk : n % 10 = k
  rw [hk] at h
  interval_cases k <;> decide

theorem decimalAux_digits :
    ∀ (n : Nat) (acc : List Char), (∀ c ∈ acc, c.isDigit = true) →
      ∀ c ∈ decimalAux n acc, c.isDigit = true := by
  intro n
  induction n using Nat.strong_induction_on with
  | _ n ih =>
    intro acc hacc c hc
    rw [decimalAux] at hc
    by_cases h : n < 10
    · rw [dif_pos h] at hc
      rcases List.mem_cons.mp hc with rfl | hmem
      · exact digit_char_isDigit n
      · exact hacc c hmem
    · rw [dif_neg h] at hc
      refine ih (n / 10) (Nat.div_lt_self (by omega) (by omega))
        (Char.ofNat (48 + n % 10) :: acc) ?_ c hc
      intro d hd
      rcases List.mem_cons.mp hd with rfl | hmem
      · exact digit_char_isDigit n
      · exact hacc d hmem

theorem decimal_no_gt (n : Nat) :
    ('g' ∉ (decimal n).toList) ∧ ('t' ∉ (decimal n).toList) := by
  have hD : ∀ c ∈ (decimal n).toList, c.isDigit = true := by
    intro c hc
    exact decimalAux_digits n [] (by intro d hd; cases hd) c hc
  constructor
  · intro hm
    have := hD _ hm
    simp [Char.isDigit] at this
  · intro hm
    have := hD _ hm
    simp [Char.isDigit] at this

theorem no_gt_in_header (status : String)
    (hstatus : status = "HTTP/1.1 200 OK" ∨ status = "HTTP/1.1 404 NOT FOUND")
    (n : Nat) :
    ¬ (['g', 't'] <:+:
        (status ++ "\r\nContent-Lenght: " ++ decimal n ++ "\r\n\r\n").toList) := by
  intro h
  have hsplit : (status ++ "\r\nContent-Lenght: " ++ decimal n ++ "\r\n\r\n").toList
      = ((status.toList ++ "\r\nContent-Lenght: ".toList) ++ (decimal n).toList)
        ++ "\r\n\r\n".toList := by
    simp
  rw [hsplit] at h
  obtain ⟨hgD, htD⟩ := decimal_no_gt n
  rcases pair_split 'g' 't' _ _ h with h1 | h2 | h3
  · rcases pair_split 'g' 't' _ _ h1 with h4 | h5 | h6
    · rcases pair_split 'g' 't' _ _ h4 with h7 | h8 | h9
      · rcases hstatus with rfl | rfl
        · exact absurd h7 (by decide)
        · exact absurd h7 (by decide)
      · exact absurd h8 (by decide)
      · rcases hstatus with rfl | rfl
        · exact absurd h9.1 (by decide)
        · exact absurd h9.1 (by decide)
    · exact htD (h5.subset (by simp))
    · exact htD h6.2
  · exact absurd h2 (by decide)
  · exact absurd h3.2 (by decide)

/-! ### The accept loop, embedded from `main` in `main.rs` -/

/-- An error returned by a single accept (e.g. a transient failure),
surfaced as an Err item of `listener.incoming()`. -/
inductive AcceptError where
  | transient
deriving DecidableEq, Repr

/-- A fatal error from `TcpListener::bind`. -/
inductive BindError where
  | fatal
deriving DecidableEq, Repr

/-- An accepted connection (stands in for a `TcpStream`). -/
structure Conn where
  id : Nat
deriving DecidableEq, Repr

/-- Outcome of the accept loop: `finished k` — the modelled trace of
accept events ended after `k` jobs were submitted; `crashed k` — the
`stream.unwrap()` call panicked on an Err accept event after `k` jobs,
crashing the process. -/
inductive AcceptLoopOutcome where
  | finished (jobsSubmitted : Nat)
  | crashed (jobsSubmitted : Nat)
deriving DecidableEq, Repr

/-- Embedded from the for-loop in `main`:
`for stream in listener.incoming() { let stream = stream.unwrap();
pool.execute(|| handle_connection(stream)); }` — each Ok event submits
one job; an Err event hits `unwrap`, which panics and aborts the loop. -/
def acceptLoop : List (Except AcceptError Conn) → Nat → AcceptLoopOutcome
  | [], k => .finished k
  | .ok _ :: rest, k => acceptLoop rest (k + 1)
  | .error _ :: _, k => .crashed k

/-- Outcome of running the server `main`. -/
inductive ServerOutcome where
  | crashedAtBind
  | ranLoop (r : AcceptLoopOutcome)
deriving DecidableEq, Repr

/-- Embedded from `main`: `TcpListener::bind("127.0.0.1:7878").unwrap()`
— a bind error panics, terminating the process before any accept;
otherwise the accept loop runs over the incoming events. -/
def serverMain (bindResult : Except BindError Unit)
    (events : List (Except AcceptError Conn)) : ServerOutcome :=
  match bindResult with
  | .error _ => .crashedAtBind
  | .ok _ => .ranLoop (acceptLoop events 0)

/-! ### Claim theorems for the handler and acceptor -/

/-- C5: the connection-handling job routes by matching the buffered
request bytes against the two known request lines — the GET / line
yields 200 OK with hello.html, the GET /sleep line yields 200 OK with
hello.html after the delay — every other request falls back to 404 NOT
FOUND with 404.html; and when all I/O succeeds the job writes exactly
the response built from the routed status line and file contents, then
finishes (closing the connection). -/
theorem fixed_routing (env : ConnEnv) (bs : List Nat) (contents : String)
    (hread : env.readBytes = .ok bs)
    (hwrite : env.writeOk = true) (hflush : env.flushOk = true) :
    (getLine.isPrefixOf (padBuffer bs) = true →
      routeRequest (padBuffer bs) = ("HTTP/1.1 200 OK", "hello.html", false)) ∧
    (sleepLine.isPrefixOf (padBuffer bs) = true →
      routeRequest (padBuffer bs) = ("HTTP/1.1 200 OK", "hello.html", true)) ∧
    (getLine.isPrefixOf (padBuffer bs) = false →
      sleepLine.isPrefixOf (padBuffer bs) = false →
      routeRequest (padBuffer bs) = ("HTTP/1.1 404 NOT FOUND", "404.html", false)) ∧
    (env.file (routeRequest (padBuffer bs)).2.1 = .ok contents →
      handle_connection env =
        .wrote (mkResponse (routeRequest (padBuffer bs)).1 contents)
          (routeRequest (padBuffer bs)).2.2) := by
  refine ⟨?_, ?_, ?_, ?_⟩
  · intro hg
    simp [routeRequest, hg]
  · intro hslp
    cases hg : getLine.isPrefixOf (padBuffer bs) with
    | true => exact absurd (get_sleep_disjoint _ hg hslp) id
    | false => simp [routeRequest, hg, hslp]
  · intro hg hslp
    simp [routeRequest, hg, hslp]
  · intro hfile
    exact handle_connection_ok env bs contents hread hfile hwrite hflush

theorem fixed_routing_witness :
    routeRequest (padBuffer getLine) = ("HTTP/1.1 200 OK", "hello.html", false) :=
  (fixed_routing
    { readBytes := .ok getLine, file := fun _ => .ok "x",
      writeOk := true, flushOk := true }
    getLine "x" rfl rfl rfl).1 (by decide)

/-- C6 counterexample (the claim as stated is false on the code): a
single transient accept error does abort the accept loop — the process
crashes at `stream.unwrap()` and the pending Ok connection behind it is
never processed, unlike the same trace without the error. -/
theorem accept_retry_counterexample :
    acceptLoop [.error .transient, .ok ⟨0⟩] 0 = .crashed 0 ∧
    acceptLoop [.ok ⟨0⟩] 0 = .finished 1 ∧
    AcceptLoopOutcome.crashed 0 ≠ AcceptLoopOutcome.finished 1 :=
  ⟨rfl, rfl, by decide⟩

/-- C6 amended: the ConnectionAcceptor terminates the process on fatal
bind errors, and it does not retry accept on transient errors: the
first Err accept event panics via `unwrap`, crashing the process after
exactly the jobs for the preceding Ok events have been submitted. -/
theorem accept_no_retry (berr : BindError)
    (events : List (Except AcceptError Conn)) :
    serverMain (.error berr) events = .crashedAtBind ∧
    (∀ (pre : List Conn) (e : AcceptError)
        (rest : List (Except AcceptError Conn)) (k : Nat),
      acceptLoop (pre.map .ok ++ .error e :: rest) k
        = .crashed (k + pre.length)) := by
  refine ⟨rfl, ?_⟩
  intro pre
  induction pre with
  | nil => intro e rest k; simp [acceptLoop]
  | cons c cs ih =>
    intro e rest k
    rw [List.map_cons, List.cons_append]
    rw [show acceptLoop (Except.ok c :: (cs.map .ok ++ .error e :: rest)) k
        = acceptLoop (cs.map .ok ++ .error e :: rest) (k + 1) from rfl]
    rw [ih e rest (k + 1)]
    simp [Nat.add_assoc, Nat.add_comm 1 cs.length]

theorem accept_no_retry_witness :
    serverMain (.error .fatal) [] = .crashedAtBind :=
  (accept_no_retry .fatal []).1

/-- C8: `handle_connection` is partial — it panics (unwrap) when the
stream read fails, when the routed file cannot be read from disk, or
when writing or flushing the response fails; and its only outcomes are
a panic or a successful write: there is no contained error path. -/
theorem handle_connection_panics (env : ConnEnv) :
    (∀ e, env.readBytes = .error e → handle_connection env = .panicked) ∧
    (∀ bs e, env.readBytes = .ok bs →
      env.file (routeRequest (padBuffer bs)).2.1 = .error e →
      handle_connection env = .panicked) ∧
    (∀ bs contents, env.readBytes = .ok bs →
      env.file (routeRequest (padBuffer bs)).2.1 = .ok contents →
      env.writeOk = false → handle_connection env = .panicked) ∧
    (∀ bs contents, env.readBytes = .ok bs →
      env.file (routeRequest (padBuffer bs)).2.1 = .ok contents →
      env.flushOk = false → handle_connection env = .panicked) ∧
    (handle_connection env = .panicked ∨
      ∃ r s, handle_connection env = .wrote r s) := by
  refine ⟨?_, ?_, ?_, ?_, ?_⟩
  · intro e he
    simp [handle_connection, he]
  · intro bs e hrb hfile
    simp [handle_connection, hrb, hfile]
  · intro bs contents hrb hfile hw
    simp [handle_connection, hrb, hfile, hw]
  · intro bs contents hrb hfile hfl
    cases hw : env.writeOk <;> simp [handle_connection, hrb, hfile, hw, hfl]
  · cases hres : handle_connection env with
    | panicked => exact Or.inl rfl
    | wrote r s => exact Or.inr ⟨r, s, rfl⟩

theorem handle_connection_panics_witness :
    handle_connection
      { readBytes := .error .ioError, file := fun _ => .ok "",
        writeOk := true, flushOk := true } = .panicked :=
  (handle_connection_panics
    { readBytes := .error .ioError, file := fun _ => .ok "",
      writeOk := true, flushOk := true }).1 .ioError rfl

/-- C9: for a successfully handled connection the bytes written are
exactly the status line, then "\r\nContent-Lenght: ", then the decimal
byte length of the file contents (always equal to contents.len()), then
"\r\n\r\n", then the contents; and because the header name is spelled
"Content-Lenght", a correctly spelled "Content-Length" header never
occurs anywhere before the blank line that ends the headers. -/
theorem response_exact_and_misspelled (buffer : List Nat) (contents : String) :
    mkResponse (routeRequest buffer).1 contents =
      (routeRequest buffer).1 ++ "\r\nContent-Lenght: "
        ++ decimal contents.utf8ByteSize ++ "\r\n\r\n" ++ contents ∧
    ¬ ("Content-Length".toList <:+:
        ((routeRequest buffer).1 ++ "\r\nContent-Lenght: "
          ++ decimal contents.utf8ByteSize ++ "\r\n\r\n").toList) ∧
    (∀ env : ConnEnv, ∀ bs : List Nat,
      env.readBytes = .ok bs → env.writeOk = true → env.flushOk = true →
      env.file (routeRequest (padBuffer bs)).2.1 = .ok contents →
      handle_connection env =
        .wrote ((routeRequest (padBuffer bs)).1 ++ "\r\nContent-Lenght: "
            ++ decimal contents.utf8ByteSize ++ "\r\n\r\n" ++ contents)
          (routeRequest (padBuffer bs)).2.2) := by
  refine ⟨rfl, ?_, ?_⟩
  · intro h
    have hgt : ['g', 't'] <:+:
        ((routeRequest buffer).1 ++ "\r\nContent-Lenght: "
          ++ decimal contents.utf8ByteSize ++ "\r\n\r\n").toList :=
      (show ['g', 't'] <:+: "Content-Length".toList by decide).trans h
    exact no_gt_in_header (routeRequest buffer).1 (routeRequest_status buffer)
      contents.utf8ByteSize hgt
  · intro env bs hread hw hfl hfile
    exact handle_connection_ok env bs contents hread hfile hw hfl

theorem response_exact_and_misspelled_witness :
    mkResponse (routeRequest (padBuffer getLine)).1 "ab" =
      (routeRequest (padBuffer getLine)).1 ++ "\r\nContent-Lenght: "
        ++ decimal ("ab" : String).utf8ByteSize ++ "\r\n\r\n" ++ "ab" :=
  (response_exact_and_misspelled (padBuffer getLine) "ab").1

/-- C10: the routing decision depends only on the bytes in the 1024-byte
buffer after the single read: any two connections (streams and read
lengths) whose buffers agree get the identical status line, filename and
delay decision; in particular request bytes beyond the first read never
influence the response. -/
theorem routing_noninterference (s1 s2 : List Nat) (n1 n2 : Nat)
    (h : connectionBuffer s1 n1 = connectionBuffer s2 n2) :
    routeRequest (connectionBuffer s1 n1)
      = routeRequest (connectionBuffer s2 n2) ∧
    (∀ (s rest : List Nat) (n : Nat), n ≤ s.length →
      routeRequest (connectionBuffer (s.take n ++ rest) n)
        = routeRequest (connectionBuffer s n)) := by
  constructor
  · rw [h]
  · intro s rest n hn
    have hlen : (s.take n).length = n := by
      simp [Nat.min_eq_left hn]
    have htake : (s.take n ++ rest).take n = s.take n := by
      rw [List.take_append_eq_append_take, hlen]
      simp
    show routeRequest (padBuffer ((s.take n ++ rest).take n))
      = routeRequest (padBuffer (s.take n))
    rw [htake]

set_option maxRecDepth 8192 in
theorem routing_noninterference_witness :
    routeRequest (connectionBuffer (getLine ++ [65]) 16)
      = routeRequest (connectionBuffer (getLine ++ [66]) 16) :=
  (routing_noninterference (getLine ++ [65]) (getLine ++ [66]) 16 16
    (by rfl)).1

end RustBook
